import Mathlib

/-!
Verification of the CSP-Digital-Twin-Dashboard traffic prediction core.

The definitions below are a shallow embedding of the Python source:
  * `convert_to_duckdb.py` — ingestion of raw observation files into the
    canonical `traffic` table (region-code extraction from file names,
    derived hour / day-of-week / date fields);
  * `prediction_engine.py` — the historical pattern matcher
    (`match_historical_data`), the confidence-weighted aggregator and
    spatial join (`calculate_predictions`), and the exporters
    (`export_predictions`).

SQL numeric values (DOUBLE) are embedded as rationals, NULLable columns as
`Option`, and tables as lists of rows.
-/

namespace CSPTwin

/-! ## Ingestion (convert_to_duckdb.py) -/

/-- Character class `[-.]` of the zipcode regex: the separator that must
precede the region code digits. -/
def isSep (c : Char) : Bool := c == '-' || c == '.'

/-- Character class `\d` of the zipcode regex. -/
def isDig (c : Char) : Bool := '0' ≤ c && c ≤ '9'

/-- First five characters of a list, when it has at least five. -/
def takeFive : List Char → Option (List Char)
  | d1 :: d2 :: d3 :: d4 :: d5 :: _ => some [d1, d2, d3, d4, d5]
  | _ => none

/-- Leftmost match of the regex `[-.](\d\x7b5\x7d)`: scan for the first
position holding a separator followed by five digits and return those five
digits. Mirrors `re.search` advancing one position after each failed
attempt. -/
def findZip : List Char → Option String
  | [] => none
  | c :: cs =>
    match takeFive cs with
    | some ds => if isSep c && ds.all isDig then some (String.mk ds) else findZip cs
    | none => findZip cs

/-- Embedding of `extract_zipcode` from convert_to_duckdb.py: extract the
region code from a file name, `none` when the regex does not match. -/
def extract_zipcode (filename : String) : Option String :=
  findZip filename.toList

/-- A parsed timestamp (the source parses each raw timestamp string into a
TIMESTAMP before deriving fields from it). -/
structure Timestamp where
  year : Nat
  month : Nat
  day : Nat
  hour : Nat
  minute : Nat
deriving DecidableEq, Repr

/-- Gregorian weekday by the Zeller congruence, over naturals:
result 0 = Saturday, 1 = Sunday, …, 6 = Friday (the `- 2J` term of the
textbook formula is replaced by the congruent `+ 5J` to stay in `Nat`). -/
def zellerH (y m d : Nat) : Nat :=
  let y2 := if m ≤ 2 then y - 1 else y
  let m2 := if m ≤ 2 then m + 12 else m
  let K := y2 % 100
  let J := y2 / 100
  (d + (13 * (m2 + 1)) / 5 + K + K / 4 + J / 4 + 5 * J) % 7

/-- Weekday number computed by the ingestion query `EXTRACT(DOW FROM ts)`:
DuckDB (like PostgreSQL) documents the `dow` part as Sunday = 0 …
Saturday = 6. -/
def extractDow (t : Timestamp) : Nat :=
  (zellerH t.year t.month t.day + 6) % 7

/-- Weekday number in the convention the specification states for the stored
`day_of_week` field: Monday = 0 … Sunday = 6. This is the numbering of
Python `date.weekday()` used by streamlit_app.py and documented for the
`day_of_week` query parameter in api.py; it is stated here from the spec's
words for comparison against `extractDow`. -/
def mondayZeroDow (t : Timestamp) : Nat :=
  (zellerH t.year t.month t.day + 5) % 7

/-- One raw observation row as read from a readings CSV (already parsed;
the per-file timestamp-format detection yields the same parsed timestamp
either way). -/
structure RawRow where
  tmc_code : String
  measurement_tstamp : Timestamp
  speed : ℚ
  reference_speed : ℚ
  travel_time_seconds : ℚ
  confidence : ℚ
deriving DecidableEq

/-- A source readings file: its name and its parsed rows. -/
structure SourceFile where
  name : String
  rows : List RawRow
deriving DecidableEq

/-- One row of the canonical `traffic` table. -/
structure TrafficRow where
  tmc_code : String
  measurement_tstamp : Timestamp
  speed : ℚ
  reference_speed : ℚ
  travel_time_seconds : ℚ
  confidence : ℚ
  hour : Nat
  day_of_week : Nat
  date : Nat × Nat × Nat
  zipcode : String
deriving DecidableEq

/-- The zipcode value interpolated into the INSERT statement: the Python
code writes the f-string of `extract_zipcode`'s result, so a failed match
(Python `None`) is stored as the literal string "None". -/
def zipcodeField : Option String → String
  | some z => z
  | none => "None"

/-- Derivation of one canonical row from one raw row, mirroring the INSERT
SELECT of `create_traffic_table`: hour is `EXTRACT(HOUR ...)`, day_of_week
is `EXTRACT(DOW ...)`, date is the calendar date of the timestamp. -/
def ingestRow (zipcode : String) (r : RawRow) : TrafficRow :=
  { tmc_code := r.tmc_code
    measurement_tstamp := r.measurement_tstamp
    speed := r.speed
    reference_speed := r.reference_speed
    travel_time_seconds := r.travel_time_seconds
    confidence := r.confidence
    hour := r.measurement_tstamp.hour
    day_of_week := extractDow r.measurement_tstamp
    date := (r.measurement_tstamp.year, r.measurement_tstamp.month, r.measurement_tstamp.day)
    zipcode := zipcode }

/-- Embedding of `create_traffic_table` from convert_to_duckdb.py: for each
file the zipcode is extracted from the file name, and every row of the file
is inserted into the `traffic` table with the derived fields. The loop body
never skips a file because of a failed name match: it proceeds with the
stringified `None`. -/
def create_traffic_table (files : List SourceFile) : List TrafficRow :=
  files.flatMap fun f => f.rows.map (ingestRow (zipcodeField (extract_zipcode f.name)))

/-! ## Historical pattern matcher (prediction_engine.py, match_historical_data) -/

/-- One observation row as selected by the matcher queries (the seven
columns of the SELECT list of `match_historical_data`). -/
structure Obs where
  tmc_code : String
  measurement_tstamp : Timestamp
  speed : ℚ
  reference_speed : ℚ
  confidence : ℚ
  hour : Int
  day_of_week : Int
deriving DecidableEq

/-- The three day-type policies accepted by `match_historical_data`. -/
inductive DayType
  | normal
  | holiday
  | special_event
deriving DecidableEq

/-- Row condition of the holiday branch WHERE clause:
`(day_of_week = 4 AND hour >= 17) OR day_of_week IN (5, 6)`. -/
def holidayCond (o : Obs) : Bool :=
  (o.day_of_week == 4 && decide (17 ≤ o.hour)) || o.day_of_week == 5 || o.day_of_week == 6

/-- The `confidence * 0.5` scaling applied inside the special_event CTEs. -/
def scaleHalf (o : Obs) : Obs :=
  { o with confidence := o.confidence * (1 / 2) }

/-- Embedding of `match_historical_data` from prediction_engine.py over a
`traffic` table given as a list of observation rows. The three branches
mirror the three SQL queries: `normal` filters on the requested day and
hour; `holiday` filters on the holiday condition and the requested hour;
`special_event` is the UNION ALL of the two filters with confidence scaled
by 0.5 on each side. -/
def match_historical_data (day_of_week hour : Int) (day_type : DayType)
    (traffic : List Obs) : List Obs :=
  match day_type with
  | .normal =>
      traffic.filter fun o => o.day_of_week == day_of_week && o.hour == hour
  | .holiday =>
      traffic.filter fun o => holidayCond o && o.hour == hour
  | .special_event =>
      ((traffic.filter fun o => o.day_of_week == day_of_week && o.hour == hour).map scaleHalf)
        ++ ((traffic.filter fun o => holidayCond o && o.hour == hour).map scaleHalf)

/-! ## Weighted aggregator and spatial join (prediction_engine.py, calculate_predictions) -/

/-- The rows of the matched subset belonging to one segment: the GROUP BY
tmc_code group of that segment. -/
def groupOf (hist : List Obs) (t : String) : List Obs :=
  hist.filter fun o => o.tmc_code == t

/-- SUM(confidence) over a group. -/
def sumConf (g : List Obs) : ℚ := (g.map fun o => o.confidence).sum

/-- SUM(speed * confidence) over a group. -/
def sumSpeedConf (g : List Obs) : ℚ := (g.map fun o => o.speed * o.confidence).sum

/-- The aggregated predicted speed
`SUM(speed * confidence) / NULLIF(SUM(confidence), 0)`: NULL (none) when
the total weight is zero, the weighted mean otherwise. -/
def predictedSpeed (g : List Obs) : Option ℚ :=
  if sumConf g = 0 then none else some (sumSpeedConf g / sumConf g)

/-- Arithmetic mean of a list of rationals (groups are nonempty whenever
this is evaluated by the aggregation, since keys come from the rows). -/
def listAvg (xs : List ℚ) : ℚ := xs.sum / xs.length

/-- Sample variance of the confidences of a group. This embeds SQL
`STDDEV(confidence)` through its square, since the square root of a
rational is in general irrational; `none` embeds the NULL that STDDEV
returns on groups of fewer than two rows. -/
def confVar (g : List Obs) : Option ℚ :=
  if g.length < 2 then none
  else
    let xs := g.map fun o => o.confidence
    let μ := listAvg xs
    some (((xs.map fun x => (x - μ) ^ 2).sum) / ((g.length : ℚ) - 1))

/-- ROUND(q, k) with DuckDB's round-half-away-from-zero tie behavior. -/
def roundTo (k : Nat) (q : ℚ) : ℚ :=
  let p : ℚ := (10 : ℚ) ^ k
  if q < 0 then -(((Int.floor (-q * p + 1 / 2) : ℤ) : ℚ) / p)
  else ((Int.floor (q * p + 1 / 2) : ℤ) : ℚ) / p

/-- One row of the `aggregated` CTE of `calculate_predictions`. The
`confidence_std_sq` field carries the square of STDDEV (see `confVar`),
with COALESCE(·, 0) applied as in the outer SELECT (0 squared is 0). -/
structure AggRow where
  tmc_code : String
  predicted_speed : Option ℚ
  reference_speed : ℚ
  confidence_mean : ℚ
  confidence_std_sq : ℚ
  sample_size : Nat
deriving DecidableEq

/-- The aggregated CTE row for one segment key. -/
def aggRow (hist : List Obs) (t : String) : AggRow :=
  let g := groupOf hist t
  { tmc_code := t
    predicted_speed := predictedSpeed g
    reference_speed := listAvg (g.map fun o => o.reference_speed)
    confidence_mean := listAvg (g.map fun o => o.confidence)
    confidence_std_sq := (confVar g).getD 0
    sample_size := g.length }

/-- One row of the `tmc_locations` table, restricted to the columns the
engine's join reads (the remaining catalog columns are never consulted by
`calculate_predictions`). Geometry coordinates are NULLable. -/
structure Location where
  tmc : String
  road : String
  direction : String
  start_latitude : Option ℚ
  start_longitude : Option ℚ
  end_latitude : Option ℚ
  end_longitude : Option ℚ
deriving DecidableEq

/-- The WHERE clause of the join: all four geometry coordinates are
non-NULL. -/
def fullGeom (l : Location) : Bool :=
  l.start_latitude.isSome && l.start_longitude.isSome
    && l.end_latitude.isSome && l.end_longitude.isSome

/-- One output row of `calculate_predictions`. -/
structure Prediction where
  tmc_code : String
  road : String
  direction : String
  predicted_speed : Option ℚ
  reference_speed : ℚ
  confidence_mean : ℚ
  confidence_std_sq : ℚ
  sample_size : Nat
  start_latitude : Option ℚ
  start_longitude : Option ℚ
  end_latitude : Option ℚ
  end_longitude : Option ℚ
deriving DecidableEq

/-- The outer SELECT of `calculate_predictions`, joining one aggregated row
with one matching location row and applying the ROUND calls. -/
def mkPrediction (a : AggRow) (l : Location) : Prediction :=
  { tmc_code := a.tmc_code
    road := l.road
    direction := l.direction
    predicted_speed := a.predicted_speed.map (roundTo 2)
    reference_speed := roundTo 2 a.reference_speed
    confidence_mean := roundTo 3 a.confidence_mean
    confidence_std_sq := a.confidence_std_sq
    sample_size := a.sample_size
    start_latitude := l.start_latitude
    start_longitude := l.start_longitude
    end_latitude := l.end_latitude
    end_longitude := l.end_longitude }

/-- The distinct GROUP BY keys of the matched subset. -/
def tmcKeys (hist : List Obs) : List String :=
  (hist.map fun o => o.tmc_code).dedup

/-- All join output rows produced for one aggregated key: one row per
location record with that tmc and full geometry (the LEFT JOIN rows that
survive the non-NULL WHERE clause). -/
def rowsForKey (hist : List Obs) (locs : List Location) (t : String) : List Prediction :=
  (locs.filter fun l => l.tmc == t && fullGeom l).map (mkPrediction (aggRow hist t))

/-- The unsorted join result of `calculate_predictions`. -/
def joinRows (hist : List Obs) (locs : List Location) : List Prediction :=
  (tmcKeys hist).flatMap (rowsForKey hist locs)

/-- ORDER BY predicted_speed ASC comparator; NULL sorts last, DuckDB's
default for ascending order. -/
def speedLE (a b : Prediction) : Bool :=
  match a.predicted_speed, b.predicted_speed with
  | none, none => true
  | none, some _ => false
  | some _, none => true
  | some x, some y => decide (x ≤ y)

/-- The column schema of the result of `calculate_predictions` (the
`confidence_std` column is carried by the `confidence_std_sq` field, see
`confVar`). -/
def outSchema : List String :=
  ["tmc_code", "road", "direction", "predicted_speed", "reference_speed",
   "confidence_mean", "confidence_std", "sample_size",
   "start_latitude", "start_longitude", "end_latitude", "end_longitude"]

/-- A result table: its column schema and its rows. -/
structure PredTable where
  schema : List String
  rows : List Prediction
deriving DecidableEq

/-- Embedding of `calculate_predictions` from prediction_engine.py: on an
empty matched subset, return the empty table with the full schema;
otherwise aggregate by segment, join to locations with full geometry, and
sort ascending by predicted speed. -/
def calculate_predictions (historical_data : List Obs) (locs : List Location) : PredTable :=
  if historical_data.isEmpty then { schema := outSchema, rows := [] }
  else { schema := outSchema, rows := (joinRows historical_data locs).mergeSort speedLE }

/-! ## Exporters (prediction_engine.py, export_predictions) -/

/-- One GeoJSON feature: a LineString of the two endpoints (longitude
before latitude) and the properties map of `export_predictions`. -/
structure GeoFeature where
  coordinates : List (Option ℚ × Option ℚ)
  tmc_code : String
  road : String
  direction : String
  predicted_speed : Option ℚ
  reference_speed : ℚ
  confidence_mean : ℚ
  confidence_std_sq : ℚ
  sample_size : Nat
deriving DecidableEq

/-- Feature built from one prediction row. -/
def toFeature (r : Prediction) : GeoFeature :=
  { coordinates := [(r.start_longitude, r.start_latitude), (r.end_longitude, r.end_latitude)]
    tmc_code := r.tmc_code
    road := r.road
    direction := r.direction
    predicted_speed := r.predicted_speed
    reference_speed := r.reference_speed
    confidence_mean := r.confidence_mean
    confidence_std_sq := r.confidence_std_sq
    sample_size := r.sample_size }

/-- A GeoJSON FeatureCollection. -/
structure GeoCollection where
  features : List GeoFeature
deriving DecidableEq

/-- The geojson branch of `export_predictions`: one feature per row. -/
def toGeojson (p : PredTable) : GeoCollection :=
  { features := p.rows.map toFeature }

/-- Text rendering of a NULLable numeric cell. -/
def optStr : Option ℚ → String
  | none => ""
  | some x => toString x

/-- The delimited-text cells of one prediction row, in schema order. -/
def fieldsOf (r : Prediction) : List String :=
  [r.tmc_code, r.road, r.direction, optStr r.predicted_speed,
   toString r.reference_speed, toString r.confidence_mean,
   toString r.confidence_std_sq, toString r.sample_size,
   optStr r.start_latitude, optStr r.start_longitude,
   optStr r.end_latitude, optStr r.end_longitude]

/-- The csv branch of `export_predictions`: a header record followed by one
record per row. -/
def toCsv (p : PredTable) : List (List String) :=
  p.schema :: p.rows.map fieldsOf

/-- The three export shapes. -/
inductive ExportValue
  | table (p : PredTable)
  | text (records : List (List String))
  | geo (g : GeoCollection)
deriving DecidableEq

/-- Embedding of `export_predictions` from prediction_engine.py: dispatch
on the format string, raising ValueError (the error branch) on anything
else. -/
def export_predictions (predictions : PredTable) (format : String) :
    Except String ExportValue :=
  if format = "dataframe" then .ok (.table predictions)
  else if format = "csv" then .ok (.text (toCsv predictions))
  else if format = "geojson" then .ok (.geo (toGeojson predictions))
  else .error ("Unsupported format: " ++ format)

/-! ## Concrete fixtures used by witnesses and counterexamples -/

/-- A raw observation row stamped Monday 2025-10-06 00:00. -/
def mondayRaw : RawRow :=
  { tmc_code := "101N04098"
    measurement_tstamp := ⟨2025, 10, 6, 0, 0⟩
    speed := 30
    reference_speed := 35
    travel_time_seconds := 60
    confidence := 1 }

/-- A readings file whose name matches the zipcode pattern. -/
def mondayFile : SourceFile :=
  { name := "Readings-30060.csv", rows := [mondayRaw] }

/-- A readings file whose name does not match the zipcode pattern. -/
def badNameFile : SourceFile :=
  { name := "Readings.csv", rows := [mondayRaw] }

/-! ## Claim theorems -/

/-- C1: the claim states that the day_of_week stored by create_traffic_table
uses Monday = 0 numbering. The ingestion derives it with EXTRACT(DOW), which
is Sunday = 0 numbering: for a row timestamped Monday 2025-10-06 the table
stores day_of_week = 1, while the Monday = 0 numbering of that date is 0. -/
theorem c1_day_numbering_diverges :
    ((create_traffic_table [mondayFile]).map fun r => r.day_of_week) = [1]
      ∧ mondayZeroDow ⟨2025, 10, 6, 0, 0⟩ = 0
      ∧ (1 : Nat) ≠ 0 := by
  decide

/-- C6 counterexample: the file named "Readings.csv" yields no region code,
yet create_traffic_table still ingests its row — with the stringified null
region code "None" — rather than rejecting the file. -/
theorem c6_unmatched_file_rows_ingested :
    extract_zipcode "Readings.csv" = none
      ∧ ((create_traffic_table [badNameFile]).map fun r => r.tmc_code) = ["101N04098"]
      ∧ ((create_traffic_table [badNameFile]).map fun r => r.zipcode) = ["None"] := by
  decide

/-- C6 (amended): a source file whose name yields no region code is not
rejected or skipped; all of its rows are ingested with the literal region
code string "None", and ingestion continues with the remaining files. -/
theorem c6_amended_ingest_with_none :
    ∀ (f : SourceFile) (fs : List SourceFile),
      extract_zipcode f.name = none →
      create_traffic_table (f :: fs)
        = f.rows.map (ingestRow "None") ++ create_traffic_table fs := by
  intro f fs h
  simp [create_traffic_table, zipcodeField, h]

/-- Witness for the amended C6 at the concrete unmatched file. -/
theorem c6_amended_ingest_with_none_witness :
    create_traffic_table [badNameFile]
      = badNameFile.rows.map (ingestRow "None") ++ create_traffic_table [] :=
  c6_amended_ingest_with_none badNameFile [] (by decide)

/-- C2: for every holiday request the matcher returns exactly the
observations whose hour equals the requested hour and that satisfy
(day_of_week = 4 and hour ≥ 17) or day_of_week in 5, 6, each row returned
unmodified (weight multiplier 1.0), and the requested day_of_week
parameter has no effect on the result. -/
theorem c2_holiday_policy :
    ∀ (d d' h : Int) (traffic : List Obs),
      match_historical_data d h .holiday traffic
          = match_historical_data d' h .holiday traffic
        ∧ (∀ o : Obs, o ∈ match_historical_data d h .holiday traffic ↔
            o ∈ traffic ∧ o.hour = h
              ∧ ((o.day_of_week = 4 ∧ 17 ≤ o.hour)
                  ∨ o.day_of_week = 5 ∨ o.day_of_week = 6)) := by
  intro d d' h traffic
  refine ⟨rfl, fun o => ?_⟩
  simp only [match_historical_data, List.mem_filter, holidayCond,
    Bool.and_eq_true, Bool.or_eq_true, beq_iff_eq, decide_eq_true_eq]
  tauto

/-- C10: for a holiday request with hour strictly below 17, every returned
row has day_of_week 5 or 6: the day_of_week = 4 arm requires hour ≥ 17,
which cannot hold together with the hour filter. -/
theorem c10_early_hour_holiday_weekend_only :
    ∀ (d h : Int) (traffic : List Obs) (o : Obs),
      h < 17 → o ∈ match_historical_data d h .holiday traffic →
      o.day_of_week = 5 ∨ o.day_of_week = 6 := by
  intro d h traffic o hlt hmem
  simp only [match_historical_data, List.mem_filter, holidayCond,
    Bool.and_eq_true, Bool.or_eq_true, beq_iff_eq, decide_eq_true_eq] at hmem
  obtain ⟨-, hcond, hh⟩ := hmem
  rcases hcond with (⟨-, h17⟩ | h5) | h6
  · omega
  · exact Or.inl h5
  · exact Or.inr h6

/-- Saturday-morning observation used by the C10 witness. -/
def wObs10 : Obs :=
  { tmc_code := "A"
    measurement_tstamp := ⟨2025, 10, 11, 10, 0⟩
    speed := 30
    reference_speed := 30
    confidence := 1
    hour := 10
    day_of_week := 5 }

/-- Witness for C10 at a concrete 10:00 holiday request. -/
theorem c10_early_hour_holiday_weekend_only_witness :
    wObs10.day_of_week = 5 ∨ wObs10.day_of_week = 6 :=
  c10_early_hour_holiday_weekend_only 3 10 [wObs10] wObs10 (by decide) (by decide)

/-- C8: on an empty matched subset, calculate_predictions returns (normally)
an empty row collection still carrying the full twelve-column schema. -/
theorem c8_empty_input_keeps_schema :
    ∀ (locs : List Location),
      calculate_predictions [] locs
        = { schema := ["tmc_code", "road", "direction", "predicted_speed",
                       "reference_speed", "confidence_mean", "confidence_std",
                       "sample_size", "start_latitude", "start_longitude",
                       "end_latitude", "end_longitude"],
            rows := ([] : List Prediction) } := by
  intro locs
  rfl

/-- C7: a per-segment group whose total confidence weight is zero gets a
NULL (none) predicted_speed from the aggregation — the NULLIF guard — and
the aggregation function remains total, producing the row rather than
raising a division error. -/
theorem c7_zero_weight_gives_null :
    ∀ (hist : List Obs) (t : String),
      sumConf (groupOf hist t) = 0 →
      (aggRow hist t).predicted_speed = none := by
  intro hist t h
  simp [aggRow, predictedSpeed, h]

/-- Observation with confidence 1 used by the C7 witness. -/
def wObs7a : Obs :=
  { tmc_code := "A"
    measurement_tstamp := ⟨2025, 1, 7, 8, 0⟩
    speed := 30
    reference_speed := 30
    confidence := 1
    hour := 8
    day_of_week := 1 }

/-- Observation with confidence -1 used by the C7 witness. -/
def wObs7b : Obs :=
  { tmc_code := "A"
    measurement_tstamp := ⟨2025, 1, 14, 8, 0⟩
    speed := 50
    reference_speed := 30
    confidence := -1
    hour := 8
    day_of_week := 1 }

/-- Witness for C7 at a concrete zero-total-weight group. -/
theorem c7_zero_weight_gives_null_witness :
    (aggRow [wObs7a, wObs7b] "A").predicted_speed = none :=
  c7_zero_weight_gives_null [wObs7a, wObs7b] "A" (by
    simp [groupOf, sumConf, wObs7a, wObs7b])

/-- C3: the special_event subset is the non-deduplicated concatenation of
the normal subset and the holiday subset, every row being a traffic row
with its confidence scaled by exactly 0.5, and each segment's aggregated
sample_size is the sum of its normal and holiday group sizes. -/
theorem c3_special_event_blend :
    ∀ (d h : Int) (traffic : List Obs) (t : String),
      match_historical_data d h .special_event traffic
          = ((match_historical_data d h .normal traffic).map scaleHalf)
            ++ ((match_historical_data d h .holiday traffic).map scaleHalf)
        ∧ (∀ o ∈ match_historical_data d h .special_event traffic,
            ∃ o' ∈ traffic, o = scaleHalf o')
        ∧ (aggRow (match_historical_data d h .special_event traffic) t).sample_size
            = (aggRow (match_historical_data d h .normal traffic) t).sample_size
              + (aggRow (match_historical_data d h .holiday traffic) t).sample_size := by
  intro d h traffic t
  refine ⟨rfl, ?_, ?_⟩
  · intro o ho
    simp only [match_historical_data, List.mem_append, List.mem_map,
      List.mem_filter] at ho
    rcases ho with ⟨o', ⟨ht, -⟩, rfl⟩ | ⟨o', ⟨ht, -⟩, rfl⟩ <;>
      exact ⟨o', ht, rfl⟩
  · show (groupOf (match_historical_data d h .special_event traffic) t).length
        = (groupOf (match_historical_data d h .normal traffic) t).length
          + (groupOf (match_historical_data d h .holiday traffic) t).length
    simp [match_historical_data, groupOf, List.filter_append, List.filter_map,
      Function.comp, scaleHalf]

/-- Helper: a nonempty list of observations has a speed-minimal element. -/
theorem exists_speed_min (g : List Obs) (hg : g ≠ []) :
    ∃ a ∈ g, ∀ o ∈ g, a.speed ≤ o.speed := by
  induction g with
  | nil => exact absurd rfl hg
  | cons x xs ih =>
    rcases eq_or_ne xs [] with rfl | hne
    · refine ⟨x, List.mem_cons_self x [], ?_⟩
      intro o ho
      rcases List.mem_cons.mp ho with rfl | ho
      · exact le_refl _
      · simp at ho
    · obtain ⟨a, ha, hmin⟩ := ih hne
      rcases le_total a.speed x.speed with hax | hxa
      · refine ⟨a, List.mem_cons_of_mem x ha, ?_⟩
        intro o ho
        rcases List.mem_cons.mp ho with rfl | ho
        · exact hax
        · exact hmin o ho
      · refine ⟨x, List.mem_cons_self x xs, ?_⟩
        intro o ho
        rcases List.mem_cons.mp ho with rfl | ho
        · exact le_refl _
        · exact le_trans hxa (hmin o ho)

/-- Helper: a nonempty list of observations has a speed-maximal element. -/
theorem exists_speed_max (g : List Obs) (hg : g ≠ []) :
    ∃ b ∈ g, ∀ o ∈ g, o.speed ≤ b.speed := by
  induction g with
  | nil => exact absurd rfl hg
  | cons x xs ih =>
    rcases eq_or_ne xs [] with rfl | hne
    · refine ⟨x, List.mem_cons_self x [], ?_⟩
      intro o ho
      rcases List.mem_cons.mp ho with rfl | ho
      · exact le_refl _
      · simp at ho
    · obtain ⟨b, hb, hmax⟩ := ih hne
      rcases le_total x.speed b.speed with hxb | hbx
      · refine ⟨b, List.mem_cons_of_mem x hb, ?_⟩
        intro o ho
        rcases List.mem_cons.mp ho with rfl | ho
        · exact hxb
        · exact hmax o ho
      · refine ⟨x, List.mem_cons_self x xs, ?_⟩
        intro o ho
        rcases List.mem_cons.mp ho with rfl | ho
        · exact le_refl _
        · exact le_trans (hmax o ho) hbx

/-- Helper: with nonnegative confidences and speeds within [lo, hi], the
weighted speed sum is bounded by lo and hi times the weight sum. -/
theorem weighted_sum_bounds (g : List Obs) (lo hi : ℚ)
    (hc : ∀ o ∈ g, 0 ≤ o.confidence)
    (hlo : ∀ o ∈ g, lo ≤ o.speed) (hhi : ∀ o ∈ g, o.speed ≤ hi) :
    lo * sumConf g ≤ sumSpeedConf g ∧ sumSpeedConf g ≤ hi * sumConf g := by
  induction g with
  | nil => simp [sumConf, sumSpeedConf]
  | cons x xs ih =>
    have hcx : 0 ≤ x.confidence := hc x (List.mem_cons_self x xs)
    have hlox : lo ≤ x.speed := hlo x (List.mem_cons_self x xs)
    have hhix : x.speed ≤ hi := hhi x (List.mem_cons_self x xs)
    obtain ⟨ih1, ih2⟩ := ih
      (fun o ho => hc o (List.mem_cons_of_mem x ho))
      (fun o ho => hlo o (List.mem_cons_of_mem x ho))
      (fun o ho => hhi o (List.mem_cons_of_mem x ho))
    have h1 : lo * x.confidence ≤ x.speed * x.confidence :=
      mul_le_mul_of_nonneg_right hlox hcx
    have h2 : x.speed * x.confidence ≤ hi * x.confidence :=
      mul_le_mul_of_nonneg_right hhix hcx
    constructor
    · calc lo * sumConf (x :: xs) = lo * x.confidence + lo * sumConf xs := by
            simp [sumConf, mul_add]
        _ ≤ x.speed * x.confidence + sumSpeedConf xs := add_le_add h1 ih1
        _ = sumSpeedConf (x :: xs) := by simp [sumSpeedConf]
    · calc sumSpeedConf (x :: xs) = x.speed * x.confidence + sumSpeedConf xs := by
            simp [sumSpeedConf]
        _ ≤ hi * x.confidence + hi * sumConf xs := add_le_add h2 ih2
        _ = hi * sumConf (x :: xs) := by simp [sumConf, mul_add]

/-- Helper: nonnegative confidences give a nonnegative weight sum. -/
theorem sumConf_nonneg (g : List Obs) (hc : ∀ o ∈ g, 0 ≤ o.confidence) :
    0 ≤ sumConf g := by
  induction g with
  | nil => simp [sumConf]
  | cons x xs ih =>
    have : 0 ≤ x.confidence := hc x (List.mem_cons_self x xs)
    have hxs := ih fun o ho => hc o (List.mem_cons_of_mem x ho)
    have : (0 : ℚ) ≤ x.confidence + sumConf xs := add_nonneg this hxs
    simpa [sumConf] using this

/-- C4 (amended): when every confidence weight in a segment group is
nonnegative and the aggregation yields a defined predicted speed, that
speed lies within [min(speed), max(speed)] of the group: the group has a
speed-minimal element a and a speed-maximal element b with
a.speed ≤ predicted ≤ b.speed. With weights of arbitrary sign — which the
spec allows, as source confidences are not clamped — the bound can fail,
see the counterexample. -/
theorem c4_amended_weighted_mean_bounded :
    ∀ (hist : List Obs) (t : String) (v : ℚ),
      (∀ o ∈ groupOf hist t, 0 ≤ o.confidence) →
      (aggRow hist t).predicted_speed = some v →
      ∃ a ∈ groupOf hist t, ∃ b ∈ groupOf hist t,
        (∀ o ∈ groupOf hist t, a.speed ≤ o.speed ∧ o.speed ≤ b.speed)
          ∧ a.speed ≤ v ∧ v ≤ b.speed := by
  intro hist t v hc hv
  have hv : predictedSpeed (groupOf hist t) = some v := hv
  set g := groupOf hist t with hg
  rw [predictedSpeed] at hv
  by_cases h0 : sumConf g = 0
  · simp [h0] at hv
  · simp only [h0, if_false] at hv
    have hvv : v = sumSpeedConf g / sumConf g := by
      simpa using hv.symm
    have hne : g ≠ [] := by
      intro hnil
      exact h0 (by simp [hnil, sumConf])
    obtain ⟨a, ha, hmin⟩ := exists_speed_min g hne
    obtain ⟨b, hb, hmax⟩ := exists_speed_max g hne
    have hpos : 0 < sumConf g := lt_of_le_of_ne (sumConf_nonneg g hc) (Ne.symm h0)
    obtain ⟨hsum1, hsum2⟩ := weighted_sum_bounds g a.speed b.speed hc hmin hmax
    refine ⟨a, ha, b, hb, fun o ho => ⟨hmin o ho, hmax o ho⟩, ?_, ?_⟩
    · rw [hvv, le_div_iff₀ hpos]
      exact hsum1
    · rw [hvv, div_le_iff₀ hpos]
      exact hsum2

/-- Observation used by the C4 witness. -/
def wObs4 : Obs :=
  { tmc_code := "A"
    measurement_tstamp := ⟨2025, 1, 7, 8, 0⟩
    speed := 30
    reference_speed := 30
    confidence := 1
    hour := 8
    day_of_week := 1 }

/-- Witness for the amended C4 at a concrete one-row group. -/
theorem c4_amended_weighted_mean_bounded_witness :
    ∃ a ∈ groupOf [wObs4] "A", ∃ b ∈ groupOf [wObs4] "A",
      (∀ o ∈ groupOf [wObs4] "A", a.speed ≤ o.speed ∧ o.speed ≤ b.speed)
        ∧ a.speed ≤ 30 ∧ (30 : ℚ) ≤ b.speed :=
  c4_amended_weighted_mean_bounded [wObs4] "A" 30
    (by
      intro o ho
      simp [groupOf, wObs4] at ho
      simp [ho])
    (by
      simp [aggRow, groupOf, predictedSpeed, sumConf, sumSpeedConf, wObs4])

/-- Traffic table with a negative-confidence row used by the C4
counterexample; both rows match a normal Tuesday 08:00 request. -/
def cexTraffic4 : List Obs :=
  [{ tmc_code := "A", measurement_tstamp := ⟨2025, 1, 7, 8, 0⟩, speed := 10,
     reference_speed := 10, confidence := 1, hour := 8, day_of_week := 1 },
   { tmc_code := "A", measurement_tstamp := ⟨2025, 1, 14, 8, 0⟩, speed := 20,
     reference_speed := 20, confidence := -(1 / 2), hour := 8, day_of_week := 1 }]

/-- The per-segment group of matched observations of the C4 counterexample. -/
def cexGroup4 : List Obs :=
  groupOf (match_historical_data 1 8 .normal cexTraffic4) "A"

/-- C4 counterexample: a nonempty matched group whose speeds are all at
least 10 but whose confidence-weighted mean is 0 — the source data may
carry a negative confidence, and then the weighted mean leaves
[min(speed), max(speed)]. -/
theorem c4_counterexample_mean_outside_range :
    predictedSpeed cexGroup4 = some 0
      ∧ (∀ o ∈ cexGroup4, (10 : ℚ) ≤ o.speed)
      ∧ ¬ ((10 : ℚ) ≤ 0) := by
  refine ⟨?_, ?_, by norm_num⟩
  · simp [cexGroup4, groupOf, match_historical_data, cexTraffic4,
      predictedSpeed, sumConf, sumSpeedConf]
    norm_num
  · intro o ho
    simp [cexGroup4, groupOf, match_historical_data, cexTraffic4] at ho
    rcases ho with rfl | rfl <;> norm_num

/-- Helper: the sort step does not change how often a predicate holds among
the result rows. -/
theorem rows_countP_eq (hist : List Obs) (locs : List Location)
    (p : Prediction → Bool) (h : hist.isEmpty = false) :
    (calculate_predictions hist locs).rows.countP p
      = (joinRows hist locs).countP p := by
  rw [calculate_predictions, if_neg (by simp [h])]
  exact (List.mergeSort_perm (joinRows hist locs) speedLE).countP_eq p

/-- Helper: rows produced for one join key all carry that key as tmc_code,
so counting rows with a given tmc_code across keys factors into the key
count times the matching-location count. -/
theorem countP_flatMap_keys (hist : List Obs) (locs : List Location)
    (t : String) (keys : List String) :
    ((keys.flatMap (rowsForKey hist locs)).countP fun r => r.tmc_code == t)
      = (keys.countP fun k => k == t)
          * (locs.countP fun l => l.tmc == t && fullGeom l) := by
  induction keys with
  | nil => simp
  | cons k ks ih =>
    rw [List.flatMap_cons, List.countP_append, ih, List.countP_cons]
    by_cases hk : k = t
    · subst hk
      have hone : ((rowsForKey hist locs k).countP fun r => r.tmc_code == k)
          = locs.countP fun l => l.tmc == k && fullGeom l := by
        rw [rowsForKey, List.countP_map]
        have hconst :
            ((fun r => r.tmc_code == k) ∘ mkPrediction (aggRow hist k))
              = fun _ => true := by
          funext l
          simp [mkPrediction, aggRow, Function.comp]
        rw [hconst]
        simp [List.countP_true, List.countP_eq_length_filter]
      rw [hone]
      simp [Nat.add_mul]
      ring
    · have hzero : ((rowsForKey hist locs k).countP fun r => r.tmc_code == t)
          = 0 := by
        rw [rowsForKey, List.countP_map]
        have hconst :
            ((fun r => r.tmc_code == t) ∘ mkPrediction (aggRow hist k))
              = fun _ => false := by
          funext l
          simp [mkPrediction, aggRow, Function.comp]
          exact hk
        rw [hconst]
        simp
      rw [hzero]
      simp [beq_eq_false_iff_ne.mpr hk]

/-- Helper: membership in the distinct key list of the matched subset. -/
theorem mem_tmcKeys (hist : List Obs) (t : String) :
    t ∈ tmcKeys hist ↔ ∃ o ∈ hist, o.tmc_code = t := by
  simp [tmcKeys, List.mem_dedup]

/-- Helper: under unique location identifiers, at most one location record
matches a given tmc with full geometry, and exactly one when such a record
exists. -/
theorem countP_locs_unique (locs : List Location) (t : String)
    (hnd : (locs.map fun l => l.tmc).Nodup) :
    (locs.countP fun l => l.tmc == t && fullGeom l)
      = if ∃ l ∈ locs, l.tmc = t ∧ fullGeom l then 1 else 0 := by
  have hle : (locs.countP fun l => l.tmc == t && fullGeom l)
      ≤ locs.countP fun l => l.tmc == t := by
    refine List.countP_mono_left fun l hl h => ?_
    simpa using (Bool.and_eq_true _ _ |>.mp h).1
  have hmap : (locs.countP fun l => l.tmc == t)
      = (locs.map fun l => l.tmc).countP (· == t) := by
    rw [List.countP_map]
    rfl
  have hone : (locs.countP fun l => l.tmc == t) ≤ 1 := by
    rw [hmap]
    simpa [List.count] using List.nodup_iff_count_le_one.mp hnd t
  by_cases hex : ∃ l ∈ locs, l.tmc = t ∧ fullGeom l
  · rw [if_pos hex]
    obtain ⟨l, hl, hlt, hg⟩ := hex
    have hpos : 0 < locs.countP fun l => l.tmc == t && fullGeom l := by
      rw [List.countP_pos_iff]
      exact ⟨l, hl, by simp [hlt, hg]⟩
    omega
  · rw [if_neg hex]
    rw [List.countP_eq_zero]
    intro l hl
    simp only [Bool.and_eq_true, beq_iff_eq, not_and]
    intro hlt hg
    exact hex ⟨l, hl, hlt, hg⟩

/-- Observation fixture of the C5 counterexample. -/
def cexObs5 : Obs :=
  { tmc_code := "A"
    measurement_tstamp := ⟨2025, 1, 7, 8, 0⟩
    speed := 30
    reference_speed := 30
    confidence := 1
    hour := 8
    day_of_week := 1 }

/-- First geometry record for segment A (full geometry). -/
def cexLocA1 : Location :=
  { tmc := "A", road := "Main St", direction := "N"
    start_latitude := some 1, start_longitude := some 2
    end_latitude := some 3, end_longitude := some 4 }

/-- Second geometry record for the same identifier A, as ingestion retains
duplicate identifiers without dedup. -/
def cexLocA2 : Location :=
  { tmc := "A", road := "Main St", direction := "N"
    start_latitude := some 5, start_longitude := some 6
    end_latitude := some 7, end_longitude := some 8 }

/-- C5 counterexample: with a duplicated segment identifier in the
locations table, calculate_predictions emits two rows for that segment,
so an identifier can appear twice in the output. -/
theorem c5_counterexample_duplicate_rows :
    ((calculate_predictions [cexObs5] [cexLocA1, cexLocA2]).rows.countP
        fun r => r.tmc_code == "A") = 2 := by
  rw [rows_countP_eq _ _ _ (by rfl), joinRows, countP_flatMap_keys]
  decide

/-- C5 (amended): when the location identifiers are pairwise distinct — the
uniqueness the claim presumes, which ingestion does not enforce — the
output of calculate_predictions has exactly one row per segment identifier
that has both matched observations and a full-geometry record, and zero
rows for every other identifier. -/
theorem c5_amended_unique_rows :
    ∀ (hist : List Obs) (locs : List Location) (t : String),
      ((locs.map fun l => l.tmc).Nodup) →
      ((calculate_predictions hist locs).rows.countP fun r => r.tmc_code == t)
        = if (∃ o ∈ hist, o.tmc_code = t) ∧ (∃ l ∈ locs, l.tmc = t ∧ fullGeom l)
          then 1 else 0 := by
  intro hist locs t hnd
  match hh : hist.isEmpty with
  | true =>
    have : hist = [] := by simpa [List.isEmpty_iff] using hh
    subst this
    simp [calculate_predictions]
  | false =>
    rw [rows_countP_eq _ _ _ hh, joinRows, countP_flatMap_keys,
      countP_locs_unique locs t hnd]
    have hkeys : ((tmcKeys hist).countP fun k => k == t)
        = if ∃ o ∈ hist, o.tmc_code = t then 1 else 0 := by
      have hnodup : (tmcKeys hist).Nodup := List.nodup_dedup _
      by_cases hin : ∃ o ∈ hist, o.tmc_code = t
      · rw [if_pos hin]
        have hpos : 0 < (tmcKeys hist).countP fun k => k == t := by
          rw [List.countP_pos_iff]
          exact ⟨t, (mem_tmcKeys hist t).mpr hin, by simp⟩
        have hle : ((tmcKeys hist).countP fun k => k == t) ≤ 1 := by
          simpa [List.count] using List.nodup_iff_count_le_one.mp hnodup t
        omega
      · rw [if_neg hin]
        rw [List.countP_eq_zero]
        intro k hk
        simp only [beq_iff_eq]
        intro hkt
        subst hkt
        exact hin ((mem_tmcKeys hist k).mp hk)
    rw [hkeys]
    by_cases h1 : ∃ o ∈ hist, o.tmc_code = t <;>
      by_cases h2 : ∃ l ∈ locs, l.tmc = t ∧ fullGeom l <;>
        simp [h1, h2]

/-- Observation fixture of the C5 witness. -/
def wObs5 : Obs :=
  { tmc_code := "B"
    measurement_tstamp := ⟨2025, 1, 7, 8, 0⟩
    speed := 30
    reference_speed := 30
    confidence := 1
    hour := 8
    day_of_week := 1 }

/-- Unique geometry record of the C5 witness. -/
def wLoc5 : Location :=
  { tmc := "B", road := "Elm St", direction := "S"
    start_latitude := some 1, start_longitude := some 2
    end_latitude := some 3, end_longitude := some 4 }

/-- Witness for the amended C5 at a concrete unique-identifier store. -/
theorem c5_amended_unique_rows_witness :
    ((calculate_predictions [wObs5] [wLoc5]).rows.countP
        fun r => r.tmc_code == "B")
      = if (∃ o ∈ [wObs5], o.tmc_code = "B")
          ∧ (∃ l ∈ [wLoc5], l.tmc = "B" ∧ fullGeom l)
        then 1 else 0 :=
  c5_amended_unique_rows [wObs5] [wLoc5] "B" (by decide)

/-- C9: a segment all of whose geometry records are absent or lack one of
the four coordinates never yields a row of calculate_predictions, nor a
feature of the geometry-collection export, nor a data record of the
delimited-text export — even when it has matched observations. -/
theorem c9_missing_geometry_excluded :
    ∀ (hist : List Obs) (locs : List Location) (t : String),
      (∀ l ∈ locs, l.tmc = t → fullGeom l = false) →
      (∀ r ∈ (calculate_predictions hist locs).rows, r.tmc_code ≠ t)
        ∧ (∀ f ∈ (toGeojson (calculate_predictions hist locs)).features,
            f.tmc_code ≠ t)
        ∧ (∀ rec ∈ (toCsv (calculate_predictions hist locs)).tail,
            rec.head? ≠ some t) := by
  intro hist locs t hloc
  have hrows : ∀ r ∈ (calculate_predictions hist locs).rows, r.tmc_code ≠ t := by
    intro r hr
    match hh : hist.isEmpty with
    | true =>
      rw [calculate_predictions, if_pos (by simp [hh])] at hr
      simp at hr
    | false =>
      rw [calculate_predictions, if_neg (by simp [hh])] at hr
      have hr2 : r ∈ joinRows hist locs :=
        ((List.mergeSort_perm (joinRows hist locs) speedLE).mem_iff).mp hr
      rw [joinRows] at hr2
      simp only [List.mem_flatMap] at hr2
      obtain ⟨k, hk, hrk⟩ := hr2
      rw [rowsForKey] at hrk
      simp only [List.mem_map, List.mem_filter, Bool.and_eq_true,
        beq_iff_eq] at hrk
      obtain ⟨l, ⟨hl, hlt, hgeom⟩, rfl⟩ := hrk
      intro hteq
      have hlt2 : l.tmc = t := by
        have : (mkPrediction (aggRow hist k) l).tmc_code = k := rfl
        rw [this] at hteq
        rw [hlt, hteq]
      rw [hloc l hl hlt2] at hgeom
      exact Bool.false_ne_true hgeom
  refine ⟨hrows, ?_, ?_⟩
  · intro f hf
    simp only [toGeojson, List.mem_map] at hf
    obtain ⟨r, hr, rfl⟩ := hf
    simpa [toFeature] using hrows r hr
  · intro rec hrec
    simp only [toCsv, List.tail_cons, List.mem_map] at hrec
    obtain ⟨r, hr, rfl⟩ := hrec
    simpa [fieldsOf] using hrows r hr

/-- Observation fixture of the C9 witness: segment A has matched data. -/
def wObs9 : Obs :=
  { tmc_code := "A"
    measurement_tstamp := ⟨2025, 1, 7, 8, 0⟩
    speed := 30
    reference_speed := 30
    confidence := 1
    hour := 8
    day_of_week := 1 }

/-- Geometry record of the C9 witness: segment A lacks one coordinate. -/
def wLoc9 : Location :=
  { tmc := "A", road := "Main St", direction := "N"
    start_latitude := some 1, start_longitude := some 2
    end_latitude := some 3, end_longitude := none }

/-- Witness for C9 at a concrete store whose only record for segment A has
a missing coordinate. -/
theorem c9_missing_geometry_excluded_witness :
    (∀ r ∈ (calculate_predictions [wObs9] [wLoc9]).rows, r.tmc_code ≠ "A")
      ∧ (∀ f ∈ (toGeojson (calculate_predictions [wObs9] [wLoc9])).features,
          f.tmc_code ≠ "A")
      ∧ (∀ rec ∈ (toCsv (calculate_predictions [wObs9] [wLoc9])).tail,
          rec.head? ≠ some "A") :=
  c9_missing_geometry_excluded [wObs9] [wLoc9] "A" (by decide)

end CSPTwin
